import Mathlib

/-!
Verification of the SaddleUp client-side game engine (`SaddleUpGame` class).

The mutable fields of the `SaddleUpGame` instance are embedded as a Lean
structure `GameState`; each JavaScript method that mutates the instance
becomes a Lean function `GameState → ... → GameState`.  DOM side effects are
modelled only insofar as they carry observable state (error notices, display
texts, the rendered bet list); purely presentational DOM manipulation
(CSS classes on buttons, track lanes) is not part of the state.

Numbers that are JavaScript floats are embedded as rationals (`ℚ`); string
building mirrors the template literals of the source.
-/

namespace SaddleUp

/-- A horse as delivered inside a `race_state` message. -/
structure Horse where
  id : ℤ
  name : String
  position : ℚ
  finished : Bool
deriving DecidableEq

/-- The race object held in `this.currentRace`. -/
structure Race where
  id : ℤ
  phase : String
  time_remaining : ℚ
  horses : List Horse
deriving DecidableEq

/-- One entry of the odds snapshot `this.currentOdds[horseId]`.
A missing or falsy (`0`) component models the JavaScript falsy cases. -/
structure OddsEntry where
  winner : ℚ
  place : ℚ
deriving DecidableEq

/-- The odds snapshot `this.currentOdds`: a finite map from horse id to entry. -/
abbrev OddsMap := List (ℤ × OddsEntry)

/-- Lookup of `this.currentOdds[horseId]` (an absent key is JS `undefined`). -/
def oddsLookup (m : OddsMap) (horseId : ℤ) : Option OddsEntry :=
  (m.find? (fun p => p.1 = horseId)).map Prod.snd

/-- The `oddsAtBetting` field of a recorded bet: a number for winner/place
bets, the string sentinel `'Variable'` for trifecta bets. -/
inductive OddsAtBetting where
  | numeric (q : ℚ)
  | varOdds
deriving DecidableEq

/-- A bet recorded in `this.currentRaceBets` (server-confirmed, enriched by
`addBetToCurrentRace` with display metadata). -/
structure Bet where
  type : String
  amount : ℚ
  selection : List ℤ
  displayText : String
  oddsAtBetting : OddsAtBetting
deriving DecidableEq

/-- The session user object `this.user`. -/
structure User where
  id : ℤ
  username : String
  balance : ℚ
  rank : Option ℤ
deriving DecidableEq

/-- A partial user payload carried by an inbound message (`message.user`).
An outer `none` means the field is absent from the payload, so the JS
object-spread merge keeps the previous value. -/
structure UserPatch where
  id : Option ℤ
  username : Option String
  balance : Option ℚ
  rank : Option (Option ℤ)
deriving DecidableEq

/-- An outbound frame produced by `this.send(...)`. -/
inductive OutMsg where
  | login (username : String)
  | placeBetMsg (bet_type : String) (amount : ℚ) (selection : List ℤ)
  | getRaceState
  | getLeaderboard
deriving DecidableEq

/-- One rendered entry of the active-bets list (`updateActiveBetsDisplay`). -/
structure BetDisplay where
  btype : String
  selectionText : String
  potential : String
deriving DecidableEq

/-- The mutable instance state of `SaddleUpGame`, together with the
observable display outputs. -/
structure GameState where
  user : Option User
  currentRace : Option Race
  selectedBetType : String
  selectedHorse : Option ℤ
  trifectaSelection : List ℤ
  currentRaceBets : List Bet
  currentOdds : OddsMap
  wsOpen : Bool
  sent : List OutMsg
  errors : List String
  raceTitleText : String
  racePhaseText : String
  timeRemainingText : String
  trifectaCountText : String
  placeTrifectaDisabled : Bool
  payoutInfoHTML : String
  betsList : List BetDisplay
  activeBetsHidden : Bool
  raceResultsHidden : Bool
  raceTrackVisible : Bool
  userNameText : String
  userBalanceText : String
  userRankText : String
deriving DecidableEq

/-- JavaScript `${n}` rendering of the 48..57 digit for `n % 10`. -/
def digitChar (n : ℕ) : Char := Char.ofNat (48 + n % 10)

/-- Two-digit zero-padded rendering of `n % 100` (the cents of a currency
amount). -/
def pad2 (n : ℕ) : String := String.mk [digitChar (n / 10 % 10), digitChar n]

/-- Embedding of JavaScript `x.toFixed(2)` on an exact rational: the integer
of hundredths nearest to `x` (ties toward `+∞`, per ECMA `toFixed`), rendered
with exactly two digits after the decimal point. -/
def toFixed2 (q : ℚ) : String :=
  let c : ℤ := ⌊q * 100 + 1 / 2⌋
  let sign : String := if c < 0 then "-" else ""
  let m : ℕ := c.natAbs
  sign ++ Nat.repr (m / 100) ++ "." ++ pad2 (m % 100)

/-- A JavaScript value passed to `formatOdds`: the fallback-relevant cases
`null`, `undefined`, `NaN`, or a finite number. -/
inductive JSNum where
  | null
  | undef
  | nan
  | num (q : ℚ)
deriving DecidableEq

/-- Embedding of `formatOdds(odds)`: `if (!odds || isNaN(odds)) return '$2.00';
return `$${odds.toFixed(2)}`;`.  For a finite number, `!odds` is truthy
exactly when the number is zero. -/
def formatOdds : JSNum → String
  | .null => "$2.00"
  | .undef => "$2.00"
  | .nan => "$2.00"
  | .num q => if q = 0 then "$2.00" else "$" ++ toFixed2 q

/-- Embedding of `getOddsTier(winnerOdds)`. -/
def getOddsTier (winnerOdds : ℚ) : String :=
  if winnerOdds ≤ 1.5 then "odds-favorite"
  else if winnerOdds ≤ 2.5 then "odds-strong"
  else if winnerOdds ≤ 4.0 then "odds-moderate"
  else if winnerOdds ≤ 8.0 then "odds-long"
  else "odds-longshot"

/-- Numeric position of a tier on the favorite-to-longshot scale, used to
state monotonicity of the classifier. -/
def tierRank : String → ℕ
  | "odds-favorite" => 0
  | "odds-strong" => 1
  | "odds-moderate" => 2
  | "odds-long" => 3
  | _ => 4

/-- Embedding of `showError(message)`: appends the transient notice to the
visible error stream (the auto-dismiss timer is display-only). -/
def showError (s : GameState) (message : String) : GameState :=
  { s with errors := s.errors ++ [message] }

/-- Embedding of `send(message)`: append to the wire when the socket is
`OPEN`, otherwise drop the command and raise the not-ready notice. -/
def send (s : GameState) (m : OutMsg) : GameState :=
  if s.wsOpen then { s with sent := s.sent ++ [m] }
  else { s with errors := s.errors ++ ["Connection not ready. Please wait and try again."] }

/-- Embedding of `updateTrifectaDisplay()`. -/
def updateTrifectaDisplay (s : GameState) : GameState :=
  { s with
    trifectaCountText := Nat.repr s.trifectaSelection.length ++ "/3 horses selected",
    placeTrifectaDisabled := s.trifectaSelection.length ≠ 3 }

/-- Embedding of `clearTrifectaSelection()` (the `clearAllSelections` call it
makes only strips CSS classes). -/
def clearTrifectaSelection (s : GameState) : GameState :=
  updateTrifectaDisplay { s with trifectaSelection := [] }

/-- Embedding of `clearSelections()`: clears the trifecta set as well as the
button highlights. -/
def clearSelections (s : GameState) : GameState :=
  updateTrifectaDisplay { s with trifectaSelection := [] }

/-- Embedding of `selectTrifectaHorse(horseId, btnElement)` (the
`parseInt` has already happened: ids are integers; the button-element
argument only receives CSS classes). -/
def selectTrifectaHorse (s : GameState) (horseId : ℤ) : GameState :=
  if s.selectedBetType ≠ "trifecta" then s
  else if s.trifectaSelection.contains horseId then
    updateTrifectaDisplay
      { s with trifectaSelection := s.trifectaSelection.filter (fun id => id ≠ horseId) }
  else if s.trifectaSelection.length < 3 then
    updateTrifectaDisplay
      { s with trifectaSelection := s.trifectaSelection ++ [horseId] }
  else
    showError s "You can only select 3 horses for box trifecta"

/-- Embedding of `placeTrifectaBet()`. -/
def placeTrifectaBet (s : GameState) : GameState :=
  if s.trifectaSelection.length ≠ 3 then
    showError s "Please select exactly 3 horses"
  else if s.currentRaceBets.any (fun b => b.type = "trifecta") then
    showError s "You can only place one trifecta bet per race"
  else
    clearTrifectaSelection
      (send s (.placeBetMsg "trifecta" 1 s.trifectaSelection))

/-- Embedding of `placeBet()`. -/
def placeBet (s : GameState) : GameState :=
  if (match s.currentRace with
      | none => true
      | some race => race.phase ≠ "betting" : Bool) then
    showError s "Betting is closed"
  else if s.selectedBetType = "trifecta" then
    placeTrifectaBet s
  else
    match s.selectedHorse with
    | none => showError s "Please select a horse"
    | some horse =>
      if s.currentRaceBets.any (fun b => b.type = s.selectedBetType) then
        showError s ("You can only place one " ++ s.selectedBetType ++ " bet per race")
      else
        clearSelections
          { send s (.placeBetMsg s.selectedBetType 1 [horse]) with selectedHorse := none }

/-- One loop iteration chain of `selectMysteryTrifecta`: `for (let i = 0; i < 3
&& horsesCopy.length > 0; i++)` picking `Math.floor(Math.random() *
horsesCopy.length)` and splicing that element out.  The random source is the
function `f`; at step `i` the used index is `f i` reduced into the current
candidate range, which covers every value `Math.floor(Math.random() * len)`
can take. -/
def mysteryPickLoop (f : ℕ → ℕ) : ℕ → ℕ → List ℤ → List ℤ → List ℤ
  | 0, _, _, picked => picked
  | _ + 1, _, [], picked => picked
  | k + 1, i, c :: cs, picked =>
    mysteryPickLoop f k (i + 1)
      ((c :: cs).eraseIdx (f i % (c :: cs).length))
      (picked ++ [(c :: cs).getD (f i % (c :: cs).length) c])

/-- Embedding of `selectMysteryTrifecta()`, parameterized by the random-index
source `f`. -/
def selectMysteryTrifecta (s : GameState) (f : ℕ → ℕ) : GameState :=
  if s.selectedBetType ≠ "trifecta" then s
  else
    match s.currentRace with
    | none => s
    | some race =>
      let s1 := clearTrifectaSelection s
      let availableHorses := race.horses.map (fun h => h.id)
      let selectedHorses := mysteryPickLoop f 3 0 availableHorses []
      updateTrifectaDisplay
        { s1 with trifectaSelection := s1.trifectaSelection ++ selectedHorses }

/-- Embedding of `getHorseCurrentOdds(horseId, betType)`. -/
def getHorseCurrentOdds (odds : OddsMap) (horseId : ℤ) (betType : String) : ℚ :=
  match oddsLookup odds horseId with
  | some entry =>
    if betType = "winner" then entry.winner
    else if betType = "place" then entry.place
    else 2
  | none => 2

/-- The potential-payout string computed per bet inside
`updateActiveBetsDisplay()`: starts as `'TBD'` and is replaced by
`$${(bet.amount * currentOdds).toFixed(2)}` only when a race is held, the bet
is not a trifecta, the bet's horse is found in the race, and the looked-up
odds value is truthy. -/
def potentialPayoutText (s : GameState) (bet : Bet) : String :=
  match s.currentRace with
  | none => "TBD"
  | some race =>
    if bet.type ≠ "trifecta" then
      match race.horses.find? (fun h => (bet.selection.head?).any (fun h0 => h.id = h0)) with
      | none => "TBD"
      | some horse =>
        let currentOdds := getHorseCurrentOdds s.currentOdds horse.id bet.type
        if currentOdds ≠ 0 then "$" ++ toFixed2 (bet.amount * currentOdds)
        else "TBD"
    else "TBD"

/-- One rendered entry of `updateActiveBetsDisplay()` for a bet. -/
def betDisplayItem (s : GameState) (bet : Bet) : BetDisplay :=
  { btype := bet.type, selectionText := bet.displayText,
    potential := potentialPayoutText s bet }

/-- Embedding of `updateActiveBetsDisplay()`: rebuilds the bets list from the
ledger; it mutates no non-display state. -/
def updateActiveBetsDisplay (s : GameState) : GameState :=
  { s with betsList := s.currentRaceBets.map (betDisplayItem s) }

/-- Embedding of the JavaScript `phase.charAt(0).toUpperCase() +
phase.slice(1)`. -/
def capitalizeFirst (str : String) : String :=
  match str.data with
  | [] => ""
  | c :: cs => String.mk (c.toUpper :: cs)

/-- Embedding of `updatePhase(phase, timeRemaining)`.  Entering `betting`
clears any lingering trifecta selection. -/
def updatePhase (s : GameState) (phase : String) (timeRemaining : ℚ) : GameState :=
  let s1 := { s with
    racePhaseText := capitalizeFirst phase,
    timeRemainingText :=
      if phase = "betting" then Int.repr ⌈max 0 timeRemaining⌉ ++ "s"
      else if phase = "racing" then "Racing..."
      else if phase = "results" then
        (if 0 < timeRemaining then Int.repr ⌈timeRemaining⌉ ++ "s" else "Results")
      else "" }
  if phase = "betting" then
    updateTrifectaDisplay { s1 with trifectaSelection := [] }
  else s1

/-- The race-identity guard of `updateRaceState`: `!this.currentRace ||
race.id !== this.currentRace.id`. -/
def isNewRace (s : GameState) (race : Race) : Bool :=
  match s.currentRace with
  | none => true
  | some current => race.id ≠ current.id

/-- The hard-reset prefix of `updateRaceState(race)`, executed before
`this.currentRace = race`: empties the ledger, the payout info and the
trifecta selection when the incoming race id differs (or no race is held). -/
def raceChangeReset (s : GameState) (race : Race) : GameState :=
  if isNewRace s race then
    updateTrifectaDisplay
      { s with currentRaceBets := [], payoutInfoHTML := "", trifectaSelection := [] }
  else s

/-- The phase-dependent show/hide block of `updateRaceState(race)`. -/
def applyPhaseVisibility (s : GameState) (race : Race) : GameState :=
  if race.phase = "results" then
    { s with raceTrackVisible := false, raceResultsHidden := false, activeBetsHidden := true }
  else if race.phase = "betting" then
    { s with raceTrackVisible := false, raceResultsHidden := true, activeBetsHidden := true }
  else
    let s1 := { s with raceTrackVisible := true, raceResultsHidden := true }
    if race.phase = "racing" ∧ s1.currentRaceBets.length > 0 then
      updateActiveBetsDisplay { s1 with activeBetsHidden := false }
    else
      { s1 with activeBetsHidden := true }

/-- Embedding of `updateRaceState(race)`: reset on id change, adopt the new
race, update phase/time display, then the phase-dependent visibility (the
remaining `createTrack`/`updateBettingOptions` calls only rebuild DOM). -/
def updateRaceState (s : GameState) (race : Race) : GameState :=
  let s1 := raceChangeReset s race
  let s2 := { s1 with
    currentRace := some race,
    raceTitleText := "Race #" ++ Int.repr race.id }
  let s3 := updatePhase s2 race.phase race.time_remaining
  applyPhaseVisibility s3 race

/-- Embedding of `updateUser(userData)`: object-spread merge of the partial
payload over the existing user, then refresh of the header displays;
a no-op when no session user exists yet. -/
def updateUser (s : GameState) (patch : UserPatch) : GameState :=
  match s.user with
  | none => s
  | some u =>
    let merged : User :=
      { id := patch.id.getD u.id,
        username := patch.username.getD u.username,
        balance := patch.balance.getD u.balance,
        rank := patch.rank.getD u.rank }
    { s with
      user := some merged,
      userNameText := merged.username,
      userBalanceText := "$" ++ toFixed2 merged.balance,
      userRankText :=
        match merged.rank with
        | some r => "Rank #" ++ Int.repr r
        | none => "Rank #--" }

/-- The user-merge preamble of `handleMessage(message)`: `if (message.user)
this.updateUser(message.user)`. -/
def handleUserField (s : GameState) (msgUser : Option UserPatch) : GameState :=
  match msgUser with
  | some patch => updateUser s patch
  | none => s

/-- The fixed reconnect backoff of `setTimeout(() => this.connect(), 3000)`. -/
def reconnectDelayMs : ℕ := 3000

/-- Connection-lifecycle state: whether a socket created by `connect()` is
still able to fire its `onclose`, and the delays of the reconnect timers
currently pending.  `connect()` is called once from the constructor and then
only from a reconnect timer. -/
structure ConnState where
  socketLive : Bool
  pendingReconnects : List ℕ
deriving DecidableEq

/-- Initial connection state: the constructor has called `connect()`. -/
def connInit : ConnState := { socketLive := true, pendingReconnects := [] }

/-- The connection-lifecycle events: the current socket's `onclose` fires
(once per socket, whether the close was clean or caused by an error) and
schedules exactly one reconnect timer with the fixed delay; a pending timer
fires and its callback runs `connect()`, creating a fresh socket. -/
inductive ConnStep : ConnState → ConnState → Prop where
  | socketClose (s : ConnState) (h : s.socketLive = true) :
      ConnStep s
        { socketLive := false,
          pendingReconnects := s.pendingReconnects ++ [reconnectDelayMs] }
  | timerFire (s : ConnState) (d : ℕ) (rest : List ℕ)
      (h : s.pendingReconnects = d :: rest) :
      ConnStep s { socketLive := true, pendingReconnects := rest }

/-- The connection states reachable from the constructor's `connect()`. -/
inductive ConnReachable : ConnState → Prop where
  | init : ConnReachable connInit
  | step {s s' : ConnState} :
      ConnReachable s → ConnStep s s' → ConnReachable s'

/-- A fully concrete quiescent game state, used to build witness states. -/
def baseState : GameState where
  user := none
  currentRace := none
  selectedBetType := "winner"
  selectedHorse := none
  trifectaSelection := []
  currentRaceBets := []
  currentOdds := []
  wsOpen := true
  sent := []
  errors := []
  raceTitleText := ""
  racePhaseText := ""
  timeRemainingText := ""
  trifectaCountText := "0/3 horses selected"
  placeTrifectaDisabled := true
  payoutInfoHTML := ""
  betsList := []
  activeBetsHidden := true
  raceResultsHidden := true
  raceTrackVisible := false
  userNameText := ""
  userBalanceText := ""
  userRankText := ""

/-- A concrete four-horse field. -/
def sampleHorses : List Horse :=
  [⟨1, "Thunder", 0, false⟩, ⟨2, "Lightning", 0, false⟩,
   ⟨3, "Storm", 0, false⟩, ⟨4, "Blaze", 0, false⟩]

/-- A concrete race in the betting phase. -/
def bettingRace : Race := ⟨1, "betting", 30, sampleHorses⟩

/-- The same race after the server moved it to the racing phase. -/
def racingRace : Race := ⟨1, "racing", 0, sampleHorses⟩

/-- A later race with a different id. -/
def nextRace : Race := ⟨2, "betting", 30, sampleHorses⟩

/-- A concrete recorded winner bet on horse 1. -/
def sampleWinnerBet : Bet :=
  { type := "winner", amount := 1, selection := [1],
    displayText := "Thunder", oddsAtBetting := .numeric 2 }

/-- A concrete recorded trifecta bet. -/
def sampleTrifectaBet : Bet :=
  { type := "trifecta", amount := 1, selection := [1, 2, 3],
    displayText := "1-2-3", oddsAtBetting := .varOdds }

/-- A concrete state in the betting phase that already holds a winner bet,
with a horse selected for a second winner-bet attempt. -/
def dupWinnerState : GameState :=
  { baseState with
      currentRace := some bettingRace
      selectedHorse := some 2
      currentRaceBets := [sampleWinnerBet] }

/-- A concrete state holding race 1 together with a stale ledger and a
partial trifecta selection, about to receive race 2. -/
def staleLedgerState : GameState :=
  { baseState with
      currentRace := some bettingRace
      currentRaceBets := [sampleWinnerBet]
      trifectaSelection := [1, 2] }

/-- A concrete trifecta-mode state with a full three-horse selection. -/
def trifectaFullState : GameState :=
  { baseState with
      selectedBetType := "trifecta"
      trifectaSelection := [1, 2, 3] }

/-- A concrete trifecta-mode state holding the four-horse betting race. -/
def trifectaModeState : GameState :=
  { baseState with
      selectedBetType := "trifecta"
      currentRace := some bettingRace }

/-- A concrete racing-phase state whose odds snapshot knows horse 1. -/
def oddsKnownState : GameState :=
  { baseState with
      currentRace := some racingRace
      currentOdds := [(1, ⟨3, 2⟩)] }

/-- A concrete racing-phase state whose odds snapshot is empty. -/
def oddsUnknownState : GameState :=
  { baseState with currentRace := some racingRace }

/-- C4: the odds classifier returns exactly one of the five tiers, with
favorite for `o ≤ 1.5`, strong for `1.5 < o ≤ 2.5`, moderate for
`2.5 < o ≤ 4.0`, long for `4.0 < o ≤ 8.0` and longshot otherwise; each
boundary value belongs to the lower (more favored) tier, and the tier rank
is monotone non-decreasing (favorite-ness non-increasing) in `o`. -/
theorem C4_oddsTier_classification :
    (∀ o : ℚ, getOddsTier o = "odds-favorite" ∨ getOddsTier o = "odds-strong" ∨
      getOddsTier o = "odds-moderate" ∨ getOddsTier o = "odds-long" ∨
      getOddsTier o = "odds-longshot") ∧
    (∀ o : ℚ,
      (o ≤ 1.5 → getOddsTier o = "odds-favorite") ∧
      (1.5 < o → o ≤ 2.5 → getOddsTier o = "odds-strong") ∧
      (2.5 < o → o ≤ 4.0 → getOddsTier o = "odds-moderate") ∧
      (4.0 < o → o ≤ 8.0 → getOddsTier o = "odds-long") ∧
      (8.0 < o → getOddsTier o = "odds-longshot")) ∧
    (getOddsTier 1.5 = "odds-favorite" ∧ getOddsTier 2.5 = "odds-strong" ∧
      getOddsTier 4.0 = "odds-moderate" ∧ getOddsTier 8.0 = "odds-long") ∧
    (∀ o₁ o₂ : ℚ, o₁ ≤ o₂ →
      tierRank (getOddsTier o₁) ≤ tierRank (getOddsTier o₂)) := by
  refine ⟨fun o => ?_, fun o => ?_, ⟨?_, ?_, ?_, ?_⟩, fun o₁ o₂ h => ?_⟩
  · unfold getOddsTier
    split_ifs <;> tauto
  · refine ⟨fun h1 => ?_, fun h1 h2 => ?_, fun h1 h2 => ?_, fun h1 h2 => ?_, fun h1 => ?_⟩ <;>
      unfold getOddsTier <;> split_ifs <;> first | rfl | linarith
  · norm_num [getOddsTier]
  · norm_num [getOddsTier]
  · norm_num [getOddsTier]
  · norm_num [getOddsTier]
  · unfold getOddsTier
    split_ifs <;> first | decide | linarith

/-- Witness for C4 at concrete inputs: `1 ≤ 9` and the classifier's tier
rank is monotone there. -/
theorem C4_oddsTier_classification_witness :
    tierRank (getOddsTier 1) ≤ tierRank (getOddsTier 9) :=
  C4_oddsTier_classification.2.2.2 1 9 (by decide)

/-- C8 counterexample: `0` is a finite number (neither null, undefined, nor
NaN), whose two-decimal currency rendering would be `$0.00`, yet the code's
`!odds` guard makes `formatOdds(0)` fall back to the default `$2.00`; the
claim's "exactly when null, undefined, or not-a-number" is therefore false
at `0`. -/
theorem C8_formatOdds_counterexample :
    formatOdds (JSNum.num 0) = "$2.00" ∧
    JSNum.num 0 ≠ JSNum.null ∧ JSNum.num 0 ≠ JSNum.undef ∧
    JSNum.num 0 ≠ JSNum.nan ∧
    "$" ++ toFixed2 0 = "$0.00" ∧ ("$2.00" : String) ≠ "$0.00" := by
  have h : ⌊(0 : ℚ) * 100 + 1 / 2⌋ = 0 := by norm_num
  refine ⟨by simp [formatOdds], by decide, by decide, by decide, ?_, by decide⟩
  simp only [toFixed2, h]
  decide

/-- C8 amended: `formatOdds` renders any nonzero finite number as a currency
string with exactly two decimal places, and falls back to the fixed default
`$2.00` exactly when the input is null, undefined, not-a-number, or the
(falsy) number zero. -/
theorem C8_formatOdds_amended :
    (formatOdds JSNum.null = "$2.00" ∧ formatOdds JSNum.undef = "$2.00" ∧
      formatOdds JSNum.nan = "$2.00" ∧ formatOdds (JSNum.num 0) = "$2.00") ∧
    (∀ q : ℚ, q ≠ 0 → formatOdds (JSNum.num q) = "$" ++ toFixed2 q) ∧
    (∀ q : ℚ, ∃ intPart fracPart : String,
      toFixed2 q = intPart ++ "." ++ fracPart ∧ fracPart.length = 2) := by
  refine ⟨⟨rfl, rfl, rfl, rfl⟩, fun q hq => ?_, fun q => ?_⟩
  · simp [formatOdds, hq]
  · exact ⟨(if (⌊q * 100 + 1 / 2⌋ : ℤ) < 0 then "-" else "") ++
        Nat.repr ((⌊q * 100 + 1 / 2⌋ : ℤ).natAbs / 100),
      pad2 ((⌊q * 100 + 1 / 2⌋ : ℤ).natAbs % 100), rfl, rfl⟩

/-- Witness for C8 amended at the concrete nonzero input `3`: `formatOdds`
renders it via `toFixed2`, and that rendering is `$3.00`. -/
theorem C8_formatOdds_amended_witness :
    formatOdds (JSNum.num 3) = "$" ++ toFixed2 3 ∧
    "$" ++ toFixed2 (3 : ℚ) = "$3.00" := by
  have h : ⌊(3 : ℚ) * 100 + 1 / 2⌋ = 300 := by norm_num
  refine ⟨C8_formatOdds_amended.2.1 3 (by decide), ?_⟩
  simp only [toFixed2, h]
  decide

/-- The send primitive never touches the bet ledger. -/
theorem send_currentRaceBets (s : GameState) (m : OutMsg) :
    (send s m).currentRaceBets = s.currentRaceBets := by
  unfold send
  split <;> rfl

/-- The send primitive never touches the trifecta selection. -/
theorem send_trifectaSelection (s : GameState) (m : OutMsg) :
    (send s m).trifectaSelection = s.trifectaSelection := by
  unfold send
  split <;> rfl

/-- Embedded `placeTrifectaBet` never modifies the bet ledger. -/
theorem placeTrifectaBet_currentRaceBets (s : GameState) :
    (placeTrifectaBet s).currentRaceBets = s.currentRaceBets := by
  unfold placeTrifectaBet
  split <;> [rfl; skip]
  split <;> [rfl; simp [clearTrifectaSelection, updateTrifectaDisplay, send_currentRaceBets]]

/-- Embedded `placeBet` never modifies the bet ledger. -/
theorem placeBet_currentRaceBets (s : GameState) :
    (placeBet s).currentRaceBets = s.currentRaceBets := by
  unfold placeBet
  split
  · rfl
  · split
    · exact placeTrifectaBet_currentRaceBets s
    · split
      · rfl
      · split <;>
          [rfl; simp [clearSelections, updateTrifectaDisplay, send_currentRaceBets]]

/-- Phase updates do not touch the bet ledger. -/
theorem updatePhase_currentRaceBets (s : GameState) (phase : String) (t : ℚ) :
    (updatePhase s phase t).currentRaceBets = s.currentRaceBets := by
  unfold updatePhase updateTrifectaDisplay
  split <;> rfl

/-- Phase updates do not touch the held race. -/
theorem updatePhase_currentRace (s : GameState) (phase : String) (t : ℚ) :
    (updatePhase s phase t).currentRace = s.currentRace := by
  unfold updatePhase updateTrifectaDisplay
  split <;> rfl

/-- Phase updates keep an empty trifecta selection empty. -/
theorem updatePhase_trifectaSelection_empty (s : GameState) (phase : String) (t : ℚ)
    (h : s.trifectaSelection = []) :
    (updatePhase s phase t).trifectaSelection = [] := by
  unfold updatePhase updateTrifectaDisplay
  split <;> simp [h]

/-- The phase-dependent visibility block of `updateRaceState` mutates only
display fields. -/
theorem applyPhaseVisibility_frame (s : GameState) (race : Race) :
    (applyPhaseVisibility s race).currentRaceBets = s.currentRaceBets ∧
    (applyPhaseVisibility s race).currentRace = s.currentRace ∧
    (applyPhaseVisibility s race).trifectaSelection = s.trifectaSelection := by
  unfold applyPhaseVisibility updateActiveBetsDisplay
  dsimp only
  split_ifs <;> exact ⟨rfl, rfl, rfl⟩

/-- C10: a user payload arriving before `login_success` has established a
session leaves the whole state unchanged; once a session exists, the merge
is an object-spread partial update, so every session field absent from the
payload keeps its previous value. -/
theorem C10_userMerge_keepAbsent :
    (∀ (s : GameState) (patch : UserPatch), s.user = none →
      handleUserField s (some patch) = s) ∧
    (∀ (s : GameState) (u : User) (patch : UserPatch), s.user = some u →
      ∃ u', (handleUserField s (some patch)).user = some u' ∧
        (patch.id = none → u'.id = u.id) ∧
        (patch.username = none → u'.username = u.username) ∧
        (patch.balance = none → u'.balance = u.balance) ∧
        (patch.rank = none → u'.rank = u.rank)) := by
  constructor
  · intro s patch h
    simp [handleUserField, updateUser, h]
  · intro s u patch h
    refine ⟨User.mk (patch.id.getD u.id) (patch.username.getD u.username)
        (patch.balance.getD u.balance) (patch.rank.getD u.rank), ?_, ?_, ?_, ?_, ?_⟩
    · simp [handleUserField, updateUser, h]
    · intro hp; simp [hp]
    · intro hp; simp [hp]
    · intro hp; simp [hp]
    · intro hp; simp [hp]

/-- Witness for C10: with no session user, a message-borne user payload is a
no-op on the concrete base state. -/
theorem C10_userMerge_keepAbsent_witness :
    handleUserField baseState (some ⟨none, none, none, none⟩) = baseState :=
  C10_userMerge_keepAbsent.1 baseState ⟨none, none, none, none⟩ rfl

/-- C5: any `placeBet()` attempt while no race is held or while the current
race's phase is not `betting` is rejected locally with the "Betting is
closed" notice, sends no outbound frame, and leaves the bet ledger
unchanged. -/
theorem C5_placeBet_closed :
    ∀ s : GameState,
      (s.currentRace = none ∨ ∃ race, s.currentRace = some race ∧ race.phase ≠ "betting") →
      (placeBet s).errors = s.errors ++ ["Betting is closed"] ∧
      (placeBet s).sent = s.sent ∧
      (placeBet s).currentRaceBets = s.currentRaceBets := by
  intro s h
  have hcond : (match s.currentRace with
      | none => true
      | some race => (race.phase ≠ "betting" : Bool)) = true := by
    rcases h with h | ⟨race, hr, hp⟩
    · rw [h]
    · rw [hr]
      simpa using hp
  unfold placeBet
  rw [if_pos hcond]
  exact ⟨rfl, rfl, rfl⟩

/-- Witness for C5: a winner-bet attempt during the racing phase of a
concrete race is rejected with the closed notice and sends nothing. -/
theorem C5_placeBet_closed_witness :
    (placeBet { baseState with currentRace := some racingRace }).errors =
      ({ baseState with currentRace := some racingRace } : GameState).errors ++
        ["Betting is closed"] ∧
    (placeBet { baseState with currentRace := some racingRace }).sent =
      ({ baseState with currentRace := some racingRace } : GameState).sent ∧
    (placeBet { baseState with currentRace := some racingRace }).currentRaceBets =
      ({ baseState with currentRace := some racingRace } : GameState).currentRaceBets :=
  C5_placeBet_closed _ (Or.inr ⟨racingRace, rfl, by decide⟩)

/-- C6: with a bet of type `t` already in the ledger, a second submission of
type `t` is rejected before send — a notice is raised, no `place_bet` frame
leaves the client, and the ledger is untouched; moreover no submission path
ever appends to the ledger client-side (entries come only from server
`bet_placed` confirmations). -/
theorem C6_one_bet_per_type :
    (∀ (s : GameState) (race : Race) (horse : ℤ),
      s.currentRace = some race → race.phase = "betting" →
      s.selectedBetType ≠ "trifecta" → s.selectedHorse = some horse →
      s.currentRaceBets.any (fun b => b.type = s.selectedBetType) = true →
      (placeBet s).errors = s.errors ++
        ["You can only place one " ++ s.selectedBetType ++ " bet per race"] ∧
      (placeBet s).sent = s.sent ∧
      (placeBet s).currentRaceBets = s.currentRaceBets) ∧
    (∀ s : GameState, s.trifectaSelection.length = 3 →
      s.currentRaceBets.any (fun b => b.type = "trifecta") = true →
      (placeTrifectaBet s).errors = s.errors ++
        ["You can only place one trifecta bet per race"] ∧
      (placeTrifectaBet s).sent = s.sent ∧
      (placeTrifectaBet s).currentRaceBets = s.currentRaceBets) ∧
    (∀ s : GameState,
      (placeBet s).currentRaceBets = s.currentRaceBets ∧
      (placeTrifectaBet s).currentRaceBets = s.currentRaceBets) := by
  refine ⟨?_, ?_, fun s => ⟨placeBet_currentRaceBets s, placeTrifectaBet_currentRaceBets s⟩⟩
  · intro s race horse h1 h2 h3 h4 h5
    unfold placeBet
    rw [if_neg (by rw [h1]; simp [h2]), if_neg h3, h4]
    dsimp only
    rw [if_pos h5]
    exact ⟨rfl, rfl, rfl⟩
  · intro s h3 hdup
    unfold placeTrifectaBet
    rw [if_neg (by simp [h3]), if_pos hdup]
    exact ⟨rfl, rfl, rfl⟩

/-- Witness for C6: with a winner bet already recorded for the concrete
betting race, a second winner-bet submission is rejected before send. -/
theorem C6_one_bet_per_type_witness :
    (placeBet dupWinnerState).errors =
      dupWinnerState.errors ++
        ["You can only place one " ++ dupWinnerState.selectedBetType ++ " bet per race"] ∧
    (placeBet dupWinnerState).sent = dupWinnerState.sent ∧
    (placeBet dupWinnerState).currentRaceBets = dupWinnerState.currentRaceBets :=
  C6_one_bet_per_type.1 dupWinnerState bettingRace 2 rfl (by decide) (by decide) rfl (by decide)

/-- C1: on a `race_state` whose race id differs from the held race (or when
none is held), the reset prefix empties the ledger and the trifecta
selection while still holding the old race, and after the full handler the
new race is adopted with ledger and selection still empty — regardless of
their pre-transition contents. -/
theorem C1_raceChange_reset :
    ∀ (s : GameState) (race : Race), isNewRace s race = true →
      (raceChangeReset s race).currentRace = s.currentRace ∧
      (raceChangeReset s race).currentRaceBets = [] ∧
      (raceChangeReset s race).trifectaSelection = [] ∧
      (updateRaceState s race).currentRace = some race ∧
      (updateRaceState s race).currentRaceBets = [] ∧
      (updateRaceState s race).trifectaSelection = [] := by
  intro s race h
  have hr : raceChangeReset s race = updateTrifectaDisplay
      { s with currentRaceBets := [], payoutInfoHTML := "", trifectaSelection := [] } := by
    unfold raceChangeReset
    rw [if_pos h]
  refine ⟨by rw [hr]; rfl, by rw [hr]; rfl, by rw [hr]; rfl, ?_, ?_, ?_⟩
  · unfold updateRaceState
    dsimp only
    rw [(applyPhaseVisibility_frame _ _).2.1, updatePhase_currentRace]
  · unfold updateRaceState
    dsimp only
    rw [(applyPhaseVisibility_frame _ _).1, updatePhase_currentRaceBets]
    simp [hr, updateTrifectaDisplay]
  · unfold updateRaceState
    dsimp only
    rw [(applyPhaseVisibility_frame _ _).2.2]
    exact updatePhase_trifectaSelection_empty _ _ _ (by simp [hr, updateTrifectaDisplay])

/-- Witness for C1 on the concrete stale state receiving race 2: the ledger
and trifecta selection come out empty on both sides of the adoption. -/
theorem C1_raceChange_reset_witness :
    (raceChangeReset staleLedgerState nextRace).currentRace = staleLedgerState.currentRace ∧
    (raceChangeReset staleLedgerState nextRace).currentRaceBets = [] ∧
    (raceChangeReset staleLedgerState nextRace).trifectaSelection = [] ∧
    (updateRaceState staleLedgerState nextRace).currentRace = some nextRace ∧
    (updateRaceState staleLedgerState nextRace).currentRaceBets = [] ∧
    (updateRaceState staleLedgerState nextRace).trifectaSelection = [] :=
  C1_raceChange_reset staleLedgerState nextRace (by decide)

/-- Toggling in non-trifecta mode leaves the state unchanged. -/
theorem selectTrifectaHorse_other (s : GameState) (h : ℤ)
    (hbt : s.selectedBetType ≠ "trifecta") : selectTrifectaHorse s h = s := by
  unfold selectTrifectaHorse
  rw [if_pos (by simpa using hbt)]

/-- Toggling an already-selected horse filters it out of the selection. -/
theorem selectTrifectaHorse_mem (s : GameState) (h : ℤ)
    (hbt : s.selectedBetType = "trifecta") (hm : h ∈ s.trifectaSelection) :
    selectTrifectaHorse s h = updateTrifectaDisplay
      { s with trifectaSelection := s.trifectaSelection.filter (fun id => id ≠ h) } := by
  unfold selectTrifectaHorse
  rw [if_neg (by simp [hbt]), if_pos (by simpa using hm)]

/-- Toggling a new horse while fewer than three are selected appends it. -/
theorem selectTrifectaHorse_add (s : GameState) (h : ℤ)
    (hbt : s.selectedBetType = "trifecta") (hm : h ∉ s.trifectaSelection)
    (hlen : s.trifectaSelection.length < 3) :
    selectTrifectaHorse s h = updateTrifectaDisplay
      { s with trifectaSelection := s.trifectaSelection ++ [h] } := by
  unfold selectTrifectaHorse
  rw [if_neg (by simp [hbt]), if_neg (by simpa using hm), if_pos hlen]

/-- Toggling a new horse with three already selected raises the capacity
error and changes nothing else. -/
theorem selectTrifectaHorse_full (s : GameState) (h : ℤ)
    (hbt : s.selectedBetType = "trifecta") (hm : h ∉ s.trifectaSelection)
    (hlen : s.trifectaSelection.length = 3) :
    selectTrifectaHorse s h =
      showError s "You can only select 3 horses for box trifecta" := by
  unfold selectTrifectaHorse
  rw [if_neg (by simp [hbt]), if_neg (by simpa using hm), if_neg (by omega)]

/-- One toggle preserves the no-duplicates and size-at-most-three invariant
of the trifecta selection. -/
theorem selectTrifectaHorse_inv (s : GameState) (h : ℤ)
    (hn : s.trifectaSelection.Nodup) (hl : s.trifectaSelection.length ≤ 3) :
    (selectTrifectaHorse s h).trifectaSelection.Nodup ∧
    (selectTrifectaHorse s h).trifectaSelection.length ≤ 3 := by
  by_cases hbt : s.selectedBetType = "trifecta"
  · by_cases hm : h ∈ s.trifectaSelection
    · rw [selectTrifectaHorse_mem s h hbt hm]
      exact ⟨hn.filter _, le_trans (s.trifectaSelection.length_filter_le _) hl⟩
    · by_cases hlen : s.trifectaSelection.length < 3
      · rw [selectTrifectaHorse_add s h hbt hm hlen]
        refine ⟨by simp [updateTrifectaDisplay, List.nodup_append, hn, hm], ?_⟩
        simp only [updateTrifectaDisplay, List.length_append, List.length_cons,
          List.length_nil]
        omega
      · rw [selectTrifectaHorse_full s h hbt hm (by omega)]
        exact ⟨hn, hl⟩
  · rw [selectTrifectaHorse_other s h hbt]
    exact ⟨hn, hl⟩

/-- The toggle invariant extends to any sequence of toggles. -/
theorem foldl_selectTrifectaHorse_inv (seq : List ℤ) (s : GameState)
    (hn : s.trifectaSelection.Nodup) (hl : s.trifectaSelection.length ≤ 3) :
    (seq.foldl selectTrifectaHorse s).trifectaSelection.Nodup ∧
    (seq.foldl selectTrifectaHorse s).trifectaSelection.length ≤ 3 := by
  induction seq generalizing s with
  | nil => exact ⟨hn, hl⟩
  | cons a as ih =>
    obtain ⟨hn', hl'⟩ := selectTrifectaHorse_inv s a hn hl
    exact ih _ hn' hl'

/-- C2: over any toggle sequence from an empty selection the trifecta set
stays duplicate-free and of size at most three; a toggle removes an already
selected horse, appends a new horse while fewer than three are selected,
and with three selected raises the capacity error leaving the selection
unchanged. -/
theorem C2_trifecta_toggle :
    (∀ (s0 : GameState) (seq : List ℤ), s0.trifectaSelection = [] →
      (seq.foldl selectTrifectaHorse s0).trifectaSelection.Nodup ∧
      (seq.foldl selectTrifectaHorse s0).trifectaSelection.length ≤ 3) ∧
    (∀ (s : GameState) (h : ℤ), s.selectedBetType = "trifecta" →
      h ∈ s.trifectaSelection →
      (selectTrifectaHorse s h).trifectaSelection =
        s.trifectaSelection.filter (fun id => id ≠ h)) ∧
    (∀ (s : GameState) (h : ℤ), s.selectedBetType = "trifecta" →
      h ∉ s.trifectaSelection → s.trifectaSelection.length < 3 →
      (selectTrifectaHorse s h).trifectaSelection = s.trifectaSelection ++ [h]) ∧
    (∀ (s : GameState) (h : ℤ), s.selectedBetType = "trifecta" →
      h ∉ s.trifectaSelection → s.trifectaSelection.length = 3 →
      (selectTrifectaHorse s h).trifectaSelection = s.trifectaSelection ∧
      (selectTrifectaHorse s h).errors =
        s.errors ++ ["You can only select 3 horses for box trifecta"]) := by
  refine ⟨?_, ?_, ?_, ?_⟩
  · intro s0 seq h0
    exact foldl_selectTrifectaHorse_inv seq s0 (by rw [h0]; exact List.nodup_nil)
      (by rw [h0]; simp)
  · intro s h hbt hm
    rw [selectTrifectaHorse_mem s h hbt hm]
    rfl
  · intro s h hbt hm hlen
    rw [selectTrifectaHorse_add s h hbt hm hlen]
    rfl
  · intro s h hbt hm hlen
    rw [selectTrifectaHorse_full s h hbt hm hlen]
    exact ⟨rfl, rfl⟩

/-- Witness for C2: a concrete toggle sequence with a repeated id keeps the
invariant, and a fourth horse on a full concrete selection is rejected with
the capacity notice. -/
theorem C2_trifecta_toggle_witness :
    ((([4, 2, 2] : List ℤ).foldl selectTrifectaHorse baseState).trifectaSelection.Nodup ∧
      (([4, 2, 2] : List ℤ).foldl selectTrifectaHorse baseState).trifectaSelection.length ≤ 3) ∧
    ((selectTrifectaHorse trifectaFullState 4).trifectaSelection =
        trifectaFullState.trifectaSelection ∧
      (selectTrifectaHorse trifectaFullState 4).errors =
        trifectaFullState.errors ++ ["You can only select 3 horses for box trifecta"]) :=
  ⟨C2_trifecta_toggle.1 baseState [4, 2, 2] rfl,
    C2_trifecta_toggle.2.2.2 trifectaFullState 4 rfl (by decide) rfl⟩

/-- A defaulted index read inside the list's bounds yields a member. -/
theorem getD_mem_of_lt (l : List ℤ) (i : ℕ) (d : ℤ) (hi : i < l.length) :
    l.getD i d ∈ l := by
  induction l generalizing i with
  | nil => simp at hi
  | cons c cs ih =>
    cases i with
    | zero => simp [List.getD]
    | succ j =>
      have hj : j < cs.length := by simpa using hi
      simpa [List.getD] using Or.inr (ih j hj)

/-- In a duplicate-free list, the element spliced out at a valid index does
not survive in the remainder. -/
theorem getD_not_mem_eraseIdx (l : List ℤ) (i : ℕ) (d : ℤ)
    (hi : i < l.length) (hn : l.Nodup) : l.getD i d ∉ l.eraseIdx i := by
  induction l generalizing i with
  | nil => simp at hi
  | cons c cs ih =>
    obtain ⟨hc, hcs⟩ := List.nodup_cons.mp hn
    cases i with
    | zero => simpa [List.getD] using hc
    | succ j =>
      have hj : j < cs.length := by simpa using hi
      intro hmem
      simp only [List.getD, List.eraseIdx, List.mem_cons] at hmem
      rcases hmem with he | hm
      · exact hc (by rw [← he]; exact getD_mem_of_lt cs j d hj)
      · exact ih j hj hcs (by simpa [List.getD] using hm)

/-- The splice loop of `selectMysteryTrifecta`: over duplicate-free
candidates disjoint from the accumulator, it extends the accumulator by
`min |candidates| fuel` elements, keeps the result duplicate-free, and draws
only from the accumulator and the candidates — for every random source. -/
theorem mysteryPickLoop_spec (f : ℕ → ℕ) :
    ∀ (k i : ℕ) (cands picked : List ℤ),
      cands.Nodup → picked.Nodup → (∀ x ∈ picked, x ∉ cands) →
      (mysteryPickLoop f k i cands picked).length =
          picked.length + min cands.length k ∧
      (mysteryPickLoop f k i cands picked).Nodup ∧
      (∀ x ∈ mysteryPickLoop f k i cands picked, x ∈ picked ∨ x ∈ cands) := by
  intro k
  induction k with
  | zero =>
    intro i cands picked _ hp _
    refine ⟨by simp [mysteryPickLoop], by simpa [mysteryPickLoop] using hp, ?_⟩
    intro x hx
    exact Or.inl (by simpa [mysteryPickLoop] using hx)
  | succ k ih =>
    intro i cands picked hc hp hdisj
    match cands with
    | [] =>
      refine ⟨by simp [mysteryPickLoop], by simpa [mysteryPickLoop] using hp, ?_⟩
      intro x hx
      exact Or.inl (by simpa [mysteryPickLoop] using hx)
    | c :: cs =>
      have hpos : 0 < (c :: cs).length := by simp
      have hlt : f i % (c :: cs).length < (c :: cs).length := Nat.mod_lt _ hpos
      have hpickmem : (c :: cs).getD (f i % (c :: cs).length) c ∈ c :: cs :=
        getD_mem_of_lt _ _ _ hlt
      have herasesub : List.Sublist ((c :: cs).eraseIdx (f i % (c :: cs).length)) (c :: cs) :=
        List.eraseIdx_sublist _ _
      have herasenodup : ((c :: cs).eraseIdx (f i % (c :: cs).length)).Nodup :=
        hc.sublist herasesub
      have hpicknotin : (c :: cs).getD (f i % (c :: cs).length) c ∉
          (c :: cs).eraseIdx (f i % (c :: cs).length) :=
        getD_not_mem_eraseIdx _ _ _ hlt hc
      have hnewnodup : (picked ++ [(c :: cs).getD (f i % (c :: cs).length) c]).Nodup := by
        rw [List.nodup_append]
        refine ⟨hp, List.nodup_singleton _, ?_⟩
        intro a ha hb
        rw [List.mem_singleton.mp hb] at ha
        exact hdisj _ ha hpickmem
      have hnewdisj : ∀ x ∈ picked ++ [(c :: cs).getD (f i % (c :: cs).length) c],
          x ∉ (c :: cs).eraseIdx (f i % (c :: cs).length) := by
        intro x hx
        rcases List.mem_append.mp hx with hx | hx
        · exact fun hmem => hdisj x hx (herasesub.mem hmem)
        · rw [List.mem_singleton.mp hx]
          exact hpicknotin
      obtain ⟨ihlen, ihnodup, ihmem⟩ :=
        ih (i + 1) ((c :: cs).eraseIdx (f i % (c :: cs).length))
          (picked ++ [(c :: cs).getD (f i % (c :: cs).length) c])
          herasenodup hnewnodup hnewdisj
      have heraselen : ((c :: cs).eraseIdx (f i % (c :: cs).length)).length = cs.length := by
        rw [List.length_eraseIdx, if_pos hlt]
        simp
      refine ⟨?_, ?_, ?_⟩
      · rw [show mysteryPickLoop f (k + 1) i (c :: cs) picked =
          mysteryPickLoop f k (i + 1) ((c :: cs).eraseIdx (f i % (c :: cs).length))
            (picked ++ [(c :: cs).getD (f i % (c :: cs).length) c]) from rfl]
        rw [ihlen, heraselen]
        simp only [List.length_append, List.length_cons, List.length_nil]
        omega
      · exact ihnodup
      · intro x hx
        rcases ihmem x hx with hx | hx
        · rcases List.mem_append.mp hx with hx | hx
          · exact Or.inl hx
          · exact Or.inr (by rw [List.mem_singleton.mp hx]; exact hpickmem)
        · exact Or.inr (herasesub.mem hx)

/-- C3: `selectMysteryTrifecta` over a trifecta-mode state holding a race
with duplicate-free horse ids ends with a selection of exactly
`min N 3` pairwise-distinct ids, all drawn from the race's horses, for every
random-index source and regardless of the prior selection. -/
theorem C3_mysteryTrifecta :
    ∀ (s : GameState) (f : ℕ → ℕ) (race : Race),
      s.selectedBetType = "trifecta" → s.currentRace = some race →
      (race.horses.map (fun h => h.id)).Nodup →
      (selectMysteryTrifecta s f).trifectaSelection.length = min race.horses.length 3 ∧
      (selectMysteryTrifecta s f).trifectaSelection.Nodup ∧
      (∀ x ∈ (selectMysteryTrifecta s f).trifectaSelection,
        x ∈ race.horses.map (fun h => h.id)) := by
  intro s f race hbt hrace hnodup
  obtain ⟨hl, hn, hm⟩ :=
    mysteryPickLoop_spec f 3 0 (race.horses.map (fun h => h.id)) []
      hnodup List.nodup_nil (by simp)
  have hsel : (selectMysteryTrifecta s f).trifectaSelection =
      mysteryPickLoop f 3 0 (race.horses.map (fun h => h.id)) [] := by
    unfold selectMysteryTrifecta
    rw [if_neg (by simp [hbt]), hrace]
    simp [clearTrifectaSelection, updateTrifectaDisplay]
  refine ⟨?_, by rw [hsel]; exact hn, ?_⟩
  · rw [hsel, hl]
    simp
  · intro x hx
    rcases hm x (by rwa [hsel] at hx) with hx0 | hxm
    · simp at hx0
    · exact hxm

/-- Witness for C3: the constant-zero random source over the concrete
four-horse race draws exactly three distinct member ids. -/
theorem C3_mysteryTrifecta_witness :
    (selectMysteryTrifecta trifectaModeState (fun _ => 0)).trifectaSelection.length =
      min bettingRace.horses.length 3 ∧
    (selectMysteryTrifecta trifectaModeState (fun _ => 0)).trifectaSelection.Nodup ∧
    (∀ x ∈ (selectMysteryTrifecta trifectaModeState (fun _ => 0)).trifectaSelection,
      x ∈ bettingRace.horses.map (fun h => h.id)) :=
  C3_mysteryTrifecta trifectaModeState (fun _ => 0) bettingRace rfl rfl (by decide)

/-- C7 counterexample: for a winner bet on horse 1 whose odds are absent
from the current snapshot (the horse itself still in the race), the
displayed potential payout is `$2.00` — the amount times the `2.0` fallback
of `getHorseCurrentOdds` — and not the pending indicator the claim
requires. -/
theorem C7_potentialPayout_counterexample :
    potentialPayoutText oddsUnknownState sampleWinnerBet = "$2.00" ∧
    oddsLookup oddsUnknownState.currentOdds 1 = none ∧
    sampleWinnerBet.type = "winner" ∧
    sampleWinnerBet.selection.head? = some 1 ∧
    (∃ horse ∈ racingRace.horses, horse.id = 1) ∧
    ("$2.00" : String) ≠ "TBD" := by
  have hstep : potentialPayoutText oddsUnknownState sampleWinnerBet =
      "$" ++ toFixed2 (1 * 2) := rfl
  have h200 : (⌊(1 * 2 : ℚ) * 100 + 1 / 2⌋ : ℤ) = 200 := by norm_num
  have hfix : toFixed2 (1 * 2 : ℚ) = "2.00" := by
    simp only [toFixed2, h200]
    decide
  refine ⟨?_, rfl, rfl, rfl, ⟨⟨1, "Thunder", 0, false⟩, by decide, rfl⟩, by decide⟩
  rw [hstep, hfix]
  rfl

/-- C7 amended: for winner/place bets the displayed potential payout is
amount × the snapshot odds when the bet's horse has a nonzero entry in the
snapshot; when the horse is absent from the snapshot it is amount × the
2.0 default; it is the pending indicator exactly when no race is held, the
horse is no longer among the race's horses, or the snapshot records a zero
(falsy) odds value; for a trifecta bet it is always pending. -/
theorem C7_potentialPayout_amended :
    (∀ (s : GameState) (bet : Bet), bet.type = "trifecta" →
      potentialPayoutText s bet = "TBD") ∧
    (∀ (s : GameState) (bet : Bet), s.currentRace = none →
      potentialPayoutText s bet = "TBD") ∧
    (∀ (s : GameState) (bet : Bet) (race : Race),
      s.currentRace = some race → bet.type ≠ "trifecta" →
      race.horses.find? (fun h => (bet.selection.head?).any (fun h0 => h.id = h0)) = none →
      potentialPayoutText s bet = "TBD") ∧
    (∀ (s : GameState) (bet : Bet) (race : Race) (horse : Horse),
      s.currentRace = some race → bet.type ≠ "trifecta" →
      race.horses.find? (fun h => (bet.selection.head?).any (fun h0 => h.id = h0)) =
        some horse →
      oddsLookup s.currentOdds horse.id = none →
      potentialPayoutText s bet = "$" ++ toFixed2 (bet.amount * 2)) ∧
    (∀ (s : GameState) (bet : Bet) (race : Race) (horse : Horse) (entry : OddsEntry),
      s.currentRace = some race → bet.type = "winner" →
      race.horses.find? (fun h => (bet.selection.head?).any (fun h0 => h.id = h0)) =
        some horse →
      oddsLookup s.currentOdds horse.id = some entry →
      (entry.winner ≠ 0 →
        potentialPayoutText s bet = "$" ++ toFixed2 (bet.amount * entry.winner)) ∧
      (entry.winner = 0 → potentialPayoutText s bet = "TBD")) ∧
    (∀ (s : GameState) (bet : Bet) (race : Race) (horse : Horse) (entry : OddsEntry),
      s.currentRace = some race → bet.type = "place" →
      race.horses.find? (fun h => (bet.selection.head?).any (fun h0 => h.id = h0)) =
        some horse →
      oddsLookup s.currentOdds horse.id = some entry →
      (entry.place ≠ 0 →
        potentialPayoutText s bet = "$" ++ toFixed2 (bet.amount * entry.place)) ∧
      (entry.place = 0 → potentialPayoutText s bet = "TBD")) := by
  refine ⟨?_, ?_, ?_, ?_, ?_, ?_⟩
  · intro s bet h
    unfold potentialPayoutText
    cases hr : s.currentRace with
    | none => rfl
    | some race =>
      dsimp only
      rw [if_neg (by simp [h])]
  · intro s bet h
    unfold potentialPayoutText
    rw [h]
  · intro s bet race hrace htype hfind
    unfold potentialPayoutText
    rw [hrace]
    dsimp only
    rw [if_pos htype, hfind]
  · intro s bet race horse hrace htype hfind hlook
    unfold potentialPayoutText getHorseCurrentOdds
    rw [hrace]
    dsimp only
    rw [if_pos htype, hfind]
    dsimp only
    rw [hlook]
    dsimp only
    rw [if_pos (by norm_num : (2 : ℚ) ≠ 0)]
  · intro s bet race horse entry hrace htype hfind hlook
    have hnt : bet.type ≠ "trifecta" := by simp [htype]
    constructor
    · intro hw
      unfold potentialPayoutText getHorseCurrentOdds
      rw [hrace]
      dsimp only
      rw [if_pos hnt, hfind]
      dsimp only
      rw [hlook]
      dsimp only
      rw [if_pos htype, if_pos hw]
    · intro hw
      unfold potentialPayoutText getHorseCurrentOdds
      rw [hrace]
      dsimp only
      rw [if_pos hnt, hfind]
      dsimp only
      rw [hlook]
      dsimp only
      rw [if_pos htype, if_neg (by simp [hw])]
  · intro s bet race horse entry hrace htype hfind hlook
    have hnt : bet.type ≠ "trifecta" := by simp [htype]
    have hnw : ¬bet.type = "winner" := by simp [htype]
    constructor
    · intro hw
      unfold potentialPayoutText getHorseCurrentOdds
      rw [hrace]
      dsimp only
      rw [if_pos hnt, hfind]
      dsimp only
      rw [hlook]
      dsimp only
      rw [if_neg hnw, if_pos htype, if_pos hw]
    · intro hw
      unfold potentialPayoutText getHorseCurrentOdds
      rw [hrace]
      dsimp only
      rw [if_pos hnt, hfind]
      dsimp only
      rw [hlook]
      dsimp only
      rw [if_neg hnw, if_pos htype, if_neg (by simp [hw])]

/-- Witness for C7 amended: the winner bet on horse 1 with snapshot odds 3
displays amount × 3. -/
theorem C7_potentialPayout_amended_witness :
    potentialPayoutText oddsKnownState sampleWinnerBet =
      "$" ++ toFixed2 (sampleWinnerBet.amount * (⟨3, 2⟩ : OddsEntry).winner) :=
  (C7_potentialPayout_amended.2.2.2.2.1 oddsKnownState sampleWinnerBet racingRace
    ⟨1, "Thunder", 0, false⟩ ⟨3, 2⟩ rfl rfl (by decide) rfl).1 (by decide)

/-- C9: from the constructor's `connect()` onward, every reachable
connection state has at most one pending reconnect timer (indeed: a live
socket and none, or a closed socket and exactly one with the fixed 3000 ms
backoff); a close from a live socket schedules exactly one timer; and every
reachable state has a successor event, so the close/reconnect cycle repeats
indefinitely. -/
theorem C9_reconnect_policy :
    (∀ s : ConnState, ConnReachable s →
      (s.socketLive = true ∧ s.pendingReconnects = []) ∨
      (s.socketLive = false ∧ s.pendingReconnects = [reconnectDelayMs])) ∧
    (∀ s : ConnState, ConnReachable s → s.pendingReconnects.length ≤ 1) ∧
    (∀ s : ConnState, ConnReachable s → s.socketLive = true →
      (s.pendingReconnects ++ [reconnectDelayMs]).length = 1) ∧
    (∀ s : ConnState, ConnReachable s → ∃ s', ConnStep s s') := by
  have hinv : ∀ s : ConnState, ConnReachable s →
      (s.socketLive = true ∧ s.pendingReconnects = []) ∨
      (s.socketLive = false ∧ s.pendingReconnects = [reconnectDelayMs]) := by
    intro s hs
    induction hs with
    | init => exact Or.inl ⟨rfl, rfl⟩
    | step hr hstep ih =>
      cases hstep with
      | socketClose ht =>
        rcases ih with ⟨_, hp⟩ | ⟨hl, _⟩
        · exact Or.inr ⟨rfl, by rw [hp]; rfl⟩
        · rw [hl] at ht
          exact absurd ht (by simp)
      | timerFire d rest hpend =>
        rcases ih with ⟨_, hp⟩ | ⟨_, hp⟩
        · rw [hp] at hpend
          simp at hpend
        · rw [hp] at hpend
          injection hpend with h1 h2
          exact Or.inl ⟨rfl, h2.symm⟩
  refine ⟨hinv, ?_, ?_, ?_⟩
  · intro s hs
    rcases hinv s hs with ⟨_, hp⟩ | ⟨_, hp⟩ <;> simp [hp]
  · intro s hs hl
    rcases hinv s hs with ⟨_, hp⟩ | ⟨hf, _⟩
    · simp [hp]
    · rw [hl] at hf
      exact absurd hf (by simp)
  · intro s hs
    rcases hinv s hs with ⟨hl, _⟩ | ⟨_, hp⟩
    · exact ⟨_, ConnStep.socketClose s hl⟩
    · exact ⟨_, ConnStep.timerFire s reconnectDelayMs [] hp⟩

/-- Witness for C9 at the initial connection state: a successor event
exists. -/
theorem C9_reconnect_policy_witness : ∃ s', ConnStep connInit s' :=
  C9_reconnect_policy.2.2.2 connInit ConnReachable.init

end SaddleUp
